import Mathlib

/-!
Shallow embedding of the CHIP-8 interpreter core (`src/lib.rs`, struct
`Chip8Emulator`) and verification of its documented instruction semantics.

Modelling conventions:
* Machine integers are `Nat` with explicit reductions at the width the Rust
  types impose: every read of an 8-bit cell (`u8`) is taken `% 256`, every
  16-bit (`u16`) arithmetic result that can exceed the width is reduced
  `% 65536` (release-mode wrapping semantics of `+=` / `-=`), exactly where
  the Rust code performs the corresponding operation.
* The fixed-size Rust arrays (`v_registers : [u8; 16]`, `memory : [u8; 4096]`,
  `stack : [u16; 16]`, `display : [bool; 2048]`, `keyboard : [bool; 16]`) are
  embedded as total functions out of `Nat`; every Rust index expression that
  can be out of bounds (a panic in Rust) is guarded by the corresponding
  bound check, and a handler returns `none` exactly when the Rust handler
  panics.  Indices that are in bounds by construction (a decoded nibble used
  on a 16-entry array inside `tick`) still carry the check in the standalone
  handler definition, mirroring the panic that the standalone Rust method
  would raise.
* `fastrand::u8(..)` (an external randomness source) is the only effect not
  expressible as state: the random byte is passed to `tick` as an explicit
  argument `r`.
-/

namespace Chip8Emulator

/-- Machine state of `struct Chip8Emulator` (src/lib.rs lines 45-70).
Field names follow the source. -/
structure State where
  v_registers : Nat → Nat
  i_register : Nat
  program_counter : Nat
  memory : Nat → Nat
  stack_pointer : Nat
  stack : Nat → Nat
  display : Nat → Bool
  keyboard : Nat → Bool
  delay_timer : Nat
  sound_timer : Nat

/-- `read_opcode` (lines 119-125): fetch the big-endian 16-bit word at the
program counter and pre-advance the program counter by 2.  The first memory
index to fault in Rust is `memory[pc]` (when `pc >= 4096`), then
`memory[pc+1]`; both are covered by the single check `pc + 1 < 4096`.
Inside the guard `pc + 2 <= 4097 < 65536`, so the `u16` add never wraps. -/
def read_opcode (s : State) : Option (Nat × State) :=
  if s.program_counter + 1 < 4096 then
    some ((s.memory s.program_counter % 256) * 256 + s.memory (s.program_counter + 1) % 256,
          { s with program_counter := s.program_counter + 2 })
  else none

/-- The 16-bit big-endian word at the program counter (the value
`read_opcode` returns when the fetch is in bounds). -/
def fetchWord (s : State) : Nat :=
  (s.memory s.program_counter % 256) * 256 + s.memory (s.program_counter + 1) % 256

/-- `skip_val_eq` (3xkk). -/
def skip_val_eq (s : State) (x byte : Nat) : Option State :=
  if x < 16 then
    some (if s.v_registers x % 256 = byte % 256 then
            { s with program_counter := (s.program_counter + 2) % 65536 }
          else s)
  else none

/-- `skip_val_not_eq` (4xkk). -/
def skip_val_not_eq (s : State) (x byte : Nat) : Option State :=
  if x < 16 then
    some (if s.v_registers x % 256 ≠ byte % 256 then
            { s with program_counter := (s.program_counter + 2) % 65536 }
          else s)
  else none

/-- `skip_registers_eq` (5xy0). -/
def skip_registers_eq (s : State) (x y : Nat) : Option State :=
  if x < 16 ∧ y < 16 then
    some (if s.v_registers x % 256 = s.v_registers y % 256 then
            { s with program_counter := (s.program_counter + 2) % 65536 }
          else s)
  else none

/-- `load_register` (6xkk). -/
def load_register (s : State) (x byte : Nat) : Option State :=
  if x < 16 then
    some { s with v_registers := Function.update s.v_registers x (byte % 256) }
  else none

/-- `add_to_register` (7xkk), `wrapping_add` on `u8`. -/
def add_to_register (s : State) (x byte : Nat) : Option State :=
  if x < 16 then
    some { s with v_registers := (
      Function.update s.v_registers x ((s.v_registers x % 256 + byte % 256) % 256)) }
  else none

/-- `load` (8xy0). -/
def load (s : State) (x y : Nat) : Option State :=
  if x < 16 ∧ y < 16 then
    some { s with v_registers := Function.update s.v_registers x (s.v_registers y % 256) }
  else none

/-- `or` (8xy1).  Named `or_xy` here because `or` would shadow the `Bool`
operation inside this namespace. -/
def or_xy (s : State) (x y : Nat) : Option State :=
  if x < 16 ∧ y < 16 then
    some { s with v_registers := (
      Function.update s.v_registers x (s.v_registers x % 256 ||| s.v_registers y % 256)) }
  else none

/-- `and` (8xy2). -/
def and_xy (s : State) (x y : Nat) : Option State :=
  if x < 16 ∧ y < 16 then
    some { s with v_registers := (
      Function.update s.v_registers x (s.v_registers x % 256 &&& s.v_registers y % 256)) }
  else none

/-- `xor` (8xy3). -/
def xor_xy (s : State) (x y : Nat) : Option State :=
  if x < 16 ∧ y < 16 then
    some { s with v_registers := (
      Function.update s.v_registers x (s.v_registers x % 256 ^^^ s.v_registers y % 256)) }
  else none

/-- `add_xy` (8xy4, lines 358-371): `u8::overflowing_add` gives
`((a + b) % 256, a + b ≥ 256)`; the result is stored into `Vx` first, then
`VF` is written with the carry flag (the nesting order of the two
`Function.update`s mirrors the two Rust assignments). -/
def add_xy (s : State) (x y : Nat) : Option State :=
  if x < 16 ∧ y < 16 then
    some { s with v_registers := (
      Function.update
        (Function.update s.v_registers x
          ((s.v_registers x % 256 + s.v_registers y % 256) % 256))
        15 (if 256 ≤ s.v_registers x % 256 + s.v_registers y % 256 then 1 else 0)) }
  else none

/-- `sub_xy` (8xy5, lines 267-280): `u8::overflowing_sub` gives
`((a + 256 - b) % 256, a < b)`; the Rust code then executes
`if overflow { VF = 1 } else { VF = 0 }` — i.e. it sets `VF = 1` exactly when
a borrow occurred (`a < b`), the opposite of its own comment
"If Vx > Vy, then VF is set to 1". -/
def sub_xy (s : State) (x y : Nat) : Option State :=
  if x < 16 ∧ y < 16 then
    some { s with v_registers := (
      Function.update
        (Function.update s.v_registers x
          ((s.v_registers x % 256 + 256 - s.v_registers y % 256) % 256))
        15 (if s.v_registers x % 256 < s.v_registers y % 256 then 1 else 0)) }
  else none

/-- `shift_right` (8xy6). -/
def shift_right (s : State) (x : Nat) : Option State :=
  if x < 16 then
    some { s with v_registers := (
      Function.update
        (Function.update s.v_registers x (s.v_registers x % 256 / 2))
        15 (s.v_registers x % 256 &&& 1)) }
  else none

/-- `subn` (8xy7, lines 291-304): `Vx := Vy - Vx` (wrapping) and, like
`sub_xy`, `VF = 1` exactly when a borrow occurred (`b < a`), the opposite of
the comment "If Vy > Vx, then VF is set to 1". -/
def subn (s : State) (x y : Nat) : Option State :=
  if x < 16 ∧ y < 16 then
    some { s with v_registers := (
      Function.update
        (Function.update s.v_registers x
          ((s.v_registers y % 256 + 256 - s.v_registers x % 256) % 256))
        15 (if s.v_registers y % 256 < s.v_registers x % 256 then 1 else 0)) }
  else none

/-- `shift_left` (8xyE): `u8` left shift keeps the low 8 bits. -/
def shift_left (s : State) (x : Nat) : Option State :=
  if x < 16 then
    some { s with v_registers := (
      Function.update
        (Function.update s.v_registers x (s.v_registers x % 256 * 2 % 256))
        15 (s.v_registers x % 256 / 128)) }
  else none

/-- `skip_registers_ne` (9xy0). -/
def skip_registers_ne (s : State) (x y : Nat) : Option State :=
  if x < 16 ∧ y < 16 then
    some (if s.v_registers x % 256 ≠ s.v_registers y % 256 then
            { s with program_counter := (s.program_counter + 2) % 65536 }
          else s)
  else none

/-- `cls` (00E0). -/
def cls (s : State) : Option State :=
  some { s with display := fun _ => false }

/-- `jmp` (1nnn); `addr` is the decoded 12-bit field. -/
def jmp (s : State) (addr : Nat) : Option State :=
  some { s with program_counter := addr }

/-- `call` (2nnn): asserts the stack is not full (`stack_pointer < 16`). -/
def call (s : State) (addr : Nat) : Option State :=
  if s.stack_pointer < 16 then
    some { s with stack := Function.update s.stack s.stack_pointer s.program_counter,
                  stack_pointer := s.stack_pointer + 1,
                  program_counter := addr }
  else none

/-- `ret` (00EE): asserts the stack is not empty. -/
def ret (s : State) : Option State :=
  if s.stack_pointer ≠ 0 then
    some { s with stack_pointer := s.stack_pointer - 1,
                  program_counter := s.stack (s.stack_pointer - 1) }
  else none

/-- `load_i_reg` (Annn). -/
def load_i_reg (s : State) (addr : Nat) : Option State :=
  some { s with i_register := addr }

/-- `jump_from` (Bnnn): `(V0 as u16) + addr` never exceeds `255 + 4095`,
so the `u16` add cannot wrap. -/
def jump_from (s : State) (addr : Nat) : Option State :=
  some { s with program_counter := s.v_registers 0 % 256 + addr }

/-- `rand` (Cxkk) with the random byte `r` supplied externally
(`fastrand::u8(..)` always succeeds). -/
def rand (s : State) (x byte r : Nat) : Option State :=
  if x < 16 then
    some { s with v_registers := Function.update s.v_registers x (r % 256 &&& byte % 256) }
  else none

/-- `skip_if_key` (Ex9E, lines 440-449): `keyboard[vx as usize]` with the
full 8-bit register value; out of bounds (≥ 16) is a panic. -/
def skip_if_key (s : State) (x : Nat) : Option State :=
  if x < 16 then
    if s.v_registers x % 256 < 16 then
      some (if s.keyboard (s.v_registers x % 256) then
              { s with program_counter := (s.program_counter + 2) % 65536 }
            else s)
    else none
  else none

/-- `skip_not_key` (ExA1, lines 451-460). -/
def skip_not_key (s : State) (x : Nat) : Option State :=
  if x < 16 then
    if s.v_registers x % 256 < 16 then
      some (if s.keyboard (s.v_registers x % 256) then s
            else { s with program_counter := (s.program_counter + 2) % 65536 })
    else none
  else none

/-- `set_register_to_delay` (Fx07). -/
def set_register_to_delay (s : State) (x : Nat) : Option State :=
  if x < 16 then
    some { s with v_registers := Function.update s.v_registers x (s.delay_timer % 256) }
  else none

/-- `wait_timer` (Fx0A, lines 469-484): scan the 16 keys in index order for
the first pressed one (`iter().enumerate()` + `break`); if one is found
write its index into `Vx`, otherwise undo the fetch pre-advance
(`program_counter -= 2`, wrapping `u16` subtraction). -/
def wait_timer (s : State) (x : Nat) : Option State :=
  match (List.range 16).find? (fun idx => s.keyboard idx) with
  | some idx =>
      if x < 16 then
        some { s with v_registers := Function.update s.v_registers x idx }
      else none
  | none =>
      some { s with program_counter := (s.program_counter + 65536 - 2) % 65536 }

/-- `set_timer` (Fx15). -/
def set_timer (s : State) (x : Nat) : Option State :=
  if x < 16 then some { s with delay_timer := s.v_registers x % 256 } else none

/-- `set_sound_timer` (Fx18). -/
def set_sound_timer (s : State) (x : Nat) : Option State :=
  if x < 16 then some { s with sound_timer := s.v_registers x % 256 } else none

/-- `add_to_i_register` (Fx1E): wrapping 16-bit add. -/
def add_to_i_register (s : State) (x : Nat) : Option State :=
  if x < 16 then
    some { s with i_register := (s.i_register + s.v_registers x % 256) % 65536 }
  else none

/-- `set_i_to_font_addr` (Fx29, lines 507-515): `I := (Vx as u16) * 5` with
the full 8-bit register value — the source applies no low-nibble mask. -/
def set_i_to_font_addr (s : State) (x : Nat) : Option State :=
  if x < 16 then
    some { s with i_register := s.v_registers x % 256 * 5 }
  else none

/-- `load_data_range` (lines 103-105): copy a byte slice into memory
starting at `start_idx`; the slice assignment panics when the range exceeds
the 4096-byte memory. -/
def writeBytes : (Nat → Nat) → Nat → List Nat → (Nat → Nat)
  | mem, _, [] => mem
  | mem, start, b :: rest => writeBytes (Function.update mem start (b % 256)) (start + 1) rest

/-- `load_data_range` wrapper with the slice bound check. -/
def load_data_range (s : State) (data : List Nat) (start_idx : Nat) : Option State :=
  if start_idx + data.length ≤ 4096 then
    some { s with memory := writeBytes s.memory start_idx data }
  else none

/-- `store_bcd_encoding` (Fx33, lines 517-530).  The Rust handler converts
`Vx` to `f64` and computes `(vx/100.0).floor`, `((vx/10.0) % 10.0).floor`
and `(vx % 1.0).floor`.  For integral `vx ∈ [0, 255]` these `f64`
computations are exact in the following sense: `vx` is exactly
representable; a quotient `vx/100.0` or `vx/10.0` is rounded by less than
`2^-44`, far less than the `≥ 1/100` distance of any non-integral exact
quotient from the integers (and an integral exact quotient is produced
exactly), so the `floor`s equal `vx / 100` and `vx / 10 % 10`; and
`vx % 1.0` is an exact IEEE remainder, `0.0` for every integral `vx` —
not the ones digit.  Hence the three stored bytes are
`[vx / 100, vx / 10 % 10, 0]`. -/
def store_bcd_encoding (s : State) (x : Nat) : Option State :=
  if x < 16 then
    load_data_range s
      [s.v_registers x % 256 / 100, s.v_registers x % 256 / 10 % 10, 0]
      s.i_register
  else none

/-- Helper for `store_registers_at_i`: write the single byte `value` at
`i + offset` for every `offset ∈ 0..=k`, in increasing offset order. -/
def writeSame (mem : Nat → Nat) (i value : Nat) : Nat → (Nat → Nat)
  | 0 => Function.update mem i value
  | k + 1 => Function.update (writeSame mem i value k) (i + (k + 1)) value

/-- `store_registers_at_i` (Fx55, lines 532-540).  The loop body is
`memory[i_addr + offset] = self.v_registers[x as usize]` — the source
register is `x` on every iteration, not `offset`.  The largest index is
`i + x`, so the loop panics iff `i + x ≥ 4096`. -/
def store_registers_at_i (s : State) (x : Nat) : Option State :=
  if x < 16 then
    if s.i_register + x < 4096 then
      some { s with memory := writeSame s.memory s.i_register (s.v_registers x % 256) x }
    else none
  else none

/-- Helper for `load_registers_from_i_addr`: `v_registers[k] :=
memory[i + k]` for every `k ∈ 0..=n`, in increasing order. -/
def loadRegs (v mem : Nat → Nat) (i : Nat) : Nat → (Nat → Nat)
  | 0 => Function.update v 0 (mem i % 256)
  | k + 1 => Function.update (loadRegs v mem i k) (k + 1) (mem (i + (k + 1)) % 256)

/-- `load_registers_from_i_addr` (Fx65, lines 542-549). -/
def load_registers_from_i_addr (s : State) (x : Nat) : Option State :=
  if x < 16 then
    if s.i_register + x < 4096 then
      some { s with v_registers := loadRegs s.v_registers s.memory s.i_register x }
    else none
  else none

/-- The row-major traversal order of the sprite-draw double loop (Dxyn,
lines 413-430): `y_line` over `0..n` outer, `x_line` over `0..8` inner. -/
def spritePairs (n : Nat) : List (Nat × Nat) :=
  (List.range n).flatMap fun yl => (List.range 8).map fun xl => (yl, xl)

/-- The framebuffer index targeted by sprite pixel `(y_line, x_line) = p`
when drawing at `(xc, yc)`: `(xc + x_line) % 64 + 64 * ((yc + y_line) % 32)`
(wraparound, `idx = x + SCREEN_WIDTH * y`). -/
def targetIdx (xc yc : Nat) (p : Nat × Nat) : Nat :=
  (xc + p.2) % 64 + 64 * ((yc + p.1) % 32)

/-- The sequence of framebuffer cells toggled by one draw, in execution
order: the sprite positions whose bit `pixels & (0b1000_0000 >> x_line)`
is set, mapped to their target indices. -/
def spriteTargets (mem : Nat → Nat) (i xc yc n : Nat) : List Nat :=
  ((spritePairs n).filter
      (fun p => mem (i + p.1) % 256 &&& 128 >>> p.2 != 0)).map (targetIdx xc yc)

/-- One iteration of the draw loop body on the `(display, flipped)`
accumulator: `flipped |= display[idx]; display[idx] ^= true`. -/
def toggleFlip (q : (Nat → Bool) × Bool) (idx : Nat) : (Nat → Bool) × Bool :=
  (Function.update q.1 idx (!q.1 idx), q.2 || q.1 idx)

/-- `display` handler (Dxyn, lines 395-438); named `display_op` because the
`display` field accessor takes the source name.  Reads `x_coord = Vx`,
`y_coord = Vy`, reads the `n` sprite rows `memory[i + y_line]` (a panic when
any row address is out of bounds, i.e. when `n > 0` and `i + n > 4096`),
toggles the targeted cells in loop order while accumulating `flipped`, and
finally writes `VF := if flipped then 1 else 0`. -/
def display_op (s : State) (x y d : Nat) : Option State :=
  if x < 16 ∧ y < 16 then
    if d = 0 ∨ s.i_register + d ≤ 4096 then
      some { s with
        display := ((spriteTargets s.memory s.i_register (s.v_registers x % 256)
            (s.v_registers y % 256) d).foldl toggleFlip (s.display, false)).1,
        v_registers := (
          Function.update s.v_registers 15
            (if ((spriteTargets s.memory s.i_register (s.v_registers x % 256)
                (s.v_registers y % 256) d).foldl toggleFlip (s.display, false)).2
             then 1 else 0)) }
    else none
  else none

/-- Result of one `tick`: Rust `tick` returns `Option<()>` with the state
mutated in place; here the (possibly pre-advanced) state is carried in the
result.  `halt` is the `return None` taken for the all-zero word, `cont` is
`Some(())`. -/
inductive TickResult where
  | halt (s : State)
  | cont (s : State)

/-- The handler dispatch of `tick` (lines 158-197) for every word other
than the halt sentinel: the Rust `match` over the decoded fields
`(c, x, y, d)` has first-match semantics over literal tuple patterns,
rendered here as the equivalent ordered chain of condition tests, one per
source arm, wildcard fields imposing no condition; the decoded fields
appear inline (`c = op / 4096 % 16`, `x = op / 256 % 16`,
`y = op / 16 % 16`, `d = op % 16`).  The final `none` is the `todo!`
panic for undefined opcodes; each handler's own `none` is its panic.  `r`
is the externally supplied random byte for the `Cxkk` handler. -/
def dispatch (st : State) (op : Nat) (r : Nat) : Option State :=
  if op / 4096 % 16 = 0 ∧ op / 256 % 16 = 0 ∧ op / 16 % 16 = 14 ∧ op % 16 = 0 then
    cls st
  else
  if op / 4096 % 16 = 0 ∧ op / 256 % 16 = 0 ∧ op / 16 % 16 = 14 ∧ op % 16 = 14 then
    ret st
  else
  if op / 4096 % 16 = 1 then
    jmp st (op % 4096)
  else
  if op / 4096 % 16 = 2 then
    call st (op % 4096)
  else
  if op / 4096 % 16 = 3 then
    skip_val_eq st (op / 256 % 16) (op % 256)
  else
  if op / 4096 % 16 = 4 then
    skip_val_not_eq st (op / 256 % 16) (op % 256)
  else
  if op / 4096 % 16 = 5 then
    skip_registers_eq st (op / 256 % 16) (op / 16 % 16)
  else
  if op / 4096 % 16 = 6 then
    load_register st (op / 256 % 16) (op % 256)
  else
  if op / 4096 % 16 = 7 then
    add_to_register st (op / 256 % 16) (op % 256)
  else
  if op / 4096 % 16 = 8 ∧ op % 16 = 0 then
    load st (op / 256 % 16) (op / 16 % 16)
  else
  if op / 4096 % 16 = 8 ∧ op % 16 = 1 then
    or_xy st (op / 256 % 16) (op / 16 % 16)
  else
  if op / 4096 % 16 = 8 ∧ op % 16 = 2 then
    and_xy st (op / 256 % 16) (op / 16 % 16)
  else
  if op / 4096 % 16 = 8 ∧ op % 16 = 3 then
    xor_xy st (op / 256 % 16) (op / 16 % 16)
  else
  if op / 4096 % 16 = 8 ∧ op % 16 = 4 then
    add_xy st (op / 256 % 16) (op / 16 % 16)
  else
  if op / 4096 % 16 = 8 ∧ op % 16 = 5 then
    sub_xy st (op / 256 % 16) (op / 16 % 16)
  else
  if op / 4096 % 16 = 8 ∧ op % 16 = 6 then
    shift_right st (op / 256 % 16)
  else
  if op / 4096 % 16 = 8 ∧ op % 16 = 7 then
    subn st (op / 256 % 16) (op / 16 % 16)
  else
  if op / 4096 % 16 = 8 ∧ op % 16 = 14 then
    shift_left st (op / 256 % 16)
  else
  if op / 4096 % 16 = 9 ∧ op % 16 = 0 then
    skip_registers_ne st (op / 256 % 16) (op / 16 % 16)
  else
  if op / 4096 % 16 = 10 then
    load_i_reg st (op % 4096)
  else
  if op / 4096 % 16 = 11 then
    jump_from st (op % 4096)
  else
  if op / 4096 % 16 = 12 then
    rand st (op / 256 % 16) (op % 256) r
  else
  if op / 4096 % 16 = 13 then
    display_op st (op / 256 % 16) (op / 16 % 16) (op % 16)
  else
  if op / 4096 % 16 = 14 ∧ op / 16 % 16 = 9 ∧ op % 16 = 14 then
    skip_if_key st (op / 256 % 16)
  else
  if op / 4096 % 16 = 14 ∧ op / 16 % 16 = 10 ∧ op % 16 = 1 then
    skip_not_key st (op / 256 % 16)
  else
  if op / 4096 % 16 = 15 ∧ op / 16 % 16 = 0 ∧ op % 16 = 7 then
    set_register_to_delay st (op / 256 % 16)
  else
  if op / 4096 % 16 = 15 ∧ op / 16 % 16 = 0 ∧ op % 16 = 10 then
    wait_timer st (op / 256 % 16)
  else
  if op / 4096 % 16 = 15 ∧ op / 16 % 16 = 1 ∧ op % 16 = 5 then
    set_timer st (op / 256 % 16)
  else
  if op / 4096 % 16 = 15 ∧ op / 16 % 16 = 1 ∧ op % 16 = 8 then
    set_sound_timer st (op / 256 % 16)
  else
  if op / 4096 % 16 = 15 ∧ op / 16 % 16 = 1 ∧ op % 16 = 14 then
    add_to_i_register st (op / 256 % 16)
  else
  if op / 4096 % 16 = 15 ∧ op / 16 % 16 = 2 ∧ op % 16 = 9 then
    set_i_to_font_addr st (op / 256 % 16)
  else
  if op / 4096 % 16 = 15 ∧ op / 16 % 16 = 3 ∧ op % 16 = 3 then
    store_bcd_encoding st (op / 256 % 16)
  else
  if op / 4096 % 16 = 15 ∧ op / 16 % 16 = 5 ∧ op % 16 = 5 then
    store_registers_at_i st (op / 256 % 16)
  else
  if op / 4096 % 16 = 15 ∧ op / 16 % 16 = 6 ∧ op % 16 = 5 then
    load_registers_from_i_addr st (op / 256 % 16)
  else
  none

/-- The instruction-execution step of `tick` after the fetch: the
`(0, 0, 0, 0)` arm is the early `return None` (halt); every other arm runs
its handler and falls through to the final `Some(())`, i.e. a continue
result carrying the handler's state. -/
def execute (st : State) (op r : Nat) : Option TickResult :=
  if op / 4096 % 16 = 0 ∧ op / 256 % 16 = 0 ∧ op / 16 % 16 = 0 ∧ op % 16 = 0 then
    some (TickResult.halt st)
  else
    Option.map TickResult.cont (dispatch st op r)

/-- `tick` (lines 139-199): fetch (with its unconditional pre-advance),
decode, dispatch.  `none` is a Rust panic, `some (halt _)` the `return None`
for the halt sentinel, `some (cont _)` the normal `Some(())` return. -/
def tick (s : State) (r : Nat) : Option TickResult :=
  match read_opcode s with
  | none => none
  | some (op, st) => execute st op r

/-- `tick_timers` (lines 127-137). -/
def tick_timers (s : State) : State :=
  { s with
    delay_timer := if 0 < s.delay_timer % 256 then s.delay_timer % 256 - 1 else s.delay_timer % 256,
    sound_timer := if 0 < s.sound_timer % 256 then s.sound_timer % 256 - 1 else s.sound_timer % 256 }

end Chip8Emulator

namespace Chip8Emulator

/-- All-zero machine state used as a concrete base for witnesses;
`program_counter` starts at the entry offset 0x200 as in `Default`. -/
def zeroState : State where
  v_registers := fun _ => 0
  i_register := 0
  program_counter := 512
  memory := fun _ => 0
  stack_pointer := 0
  stack := fun _ => 0
  display := fun _ => false
  keyboard := fun _ => false
  delay_timer := 0
  sound_timer := 0

/-- Concrete state for C1: `V0 = 5`, `V1 = 3`. -/
def subState : State := { zeroState with
  v_registers := fun j => if j = 0 then 5 else if j = 1 then 3 else 0 }

/-- Concrete state for C2: `V0 = 123`, `I = 100`. -/
def bcdState : State := { zeroState with
  v_registers := fun j => if j = 0 then 123 else 0,
  i_register := 100 }

/-- Concrete state for C3: `V0 = 1`, `V1 = 2`, `I = 100`. -/
def storeRegsState : State := { zeroState with
  v_registers := fun j => if j = 0 then 1 else if j = 1 then 2 else 0,
  i_register := 100 }

/-- Concrete state for C4: `V0 = 16`. -/
def fontState : State := { zeroState with
  v_registers := fun j => if j = 0 then 16 else 0 }

end Chip8Emulator

open Chip8Emulator

/-- Claim C1 (refuted — the code contradicts its own comments): on
`V0 = 5 ≥ V1 = 3` the subtract handler (8xy5) stores `5 - 3 = 2` in `V0`
but sets `VF = 0`, although no borrow occurred and both the spec and the
Rust comment ("If Vx > Vy, then VF is set to 1") demand `VF = 1`; dually,
the reverse subtract (8xy7) computes `3 - 5` with a borrow and sets
`VF = 1` although the claim demands `VF = 0`.  The flag is inverted. -/
theorem sub_borrow_flag_inverted :
    ((sub_xy subState 0 1).getD zeroState).v_registers 0 = 2 ∧
    subState.v_registers 0 ≥ subState.v_registers 1 ∧
    ((sub_xy subState 0 1).getD zeroState).v_registers 15 = 0 ∧
    ((subn subState 0 1).getD zeroState).v_registers 0 = 254 ∧
    ((subn subState 0 1).getD zeroState).v_registers 15 = 1 := by
  refine ⟨rfl, by decide, rfl, rfl, rfl⟩

/-- Claim C2 (refuted — the code contradicts its own comment and §4.3 of
the spec): the store-binary-coded-decimal handler (Fx33) computes the ones
digit as `(vx as f64) % 1.0`, which is exactly `0.0` for every integral
input; on `V0 = 123`, `I = 100` it stores `1, 2, 0` at `I, I+1, I+2`
although the ones digit of 123 is 3. -/
theorem bcd_ones_digit_zero :
    ((store_bcd_encoding bcdState 0).getD zeroState).memory 100 = 1 ∧
    ((store_bcd_encoding bcdState 0).getD zeroState).memory 101 = 2 ∧
    ((store_bcd_encoding bcdState 0).getD zeroState).memory 102 = 0 ∧
    bcdState.v_registers 0 % 10 = 3 := by
  refine ⟨rfl, rfl, rfl, by decide⟩

/-- Claim C3 (refuted — the code contradicts its own comment and §4.3 of
the spec): the store-registers handler (Fx55) writes
`v_registers[x]` at every offset instead of `v_registers[offset]`; with
`V0 = 1`, `V1 = 2`, `I = 100`, `x = 1` it stores `2` at address 100,
although register `V0 = 1` should be stored there. -/
theorem store_registers_same_source :
    ((store_registers_at_i storeRegsState 1).getD zeroState).memory 100 = 2 ∧
    ((store_registers_at_i storeRegsState 1).getD zeroState).memory 101 = 2 ∧
    storeRegsState.v_registers 0 = 1 := by
  refine ⟨rfl, rfl, by decide⟩

/-- Claim C4, counterexample: with `V0 = 16` the font-address handler
(Fx29) sets `I = 16 * 5 = 80`, not `(16 mod 16) * 5 = 0` — the source
applies no low-nibble mask to the register value. -/
theorem font_addr_no_mask_cex :
    ((set_i_to_font_addr fontState 0).getD zeroState).i_register = 80 ∧
    fontState.v_registers 0 % 16 * 5 = 0 := by
  refine ⟨rfl, by decide⟩

/-- Claim C4, amended: the font-address handler (Fx29) sets the I register
to `v * 5` where `v` is the full 8-bit value of `Vx`; whenever `v ≤ 15`
(every glyph actually present) this coincides with `(v mod 16) * 5`, the
glyph address of the low nibble. -/
theorem font_addr_times_five (s : State) (x : Nat) (hx : x < 16) :
    set_i_to_font_addr s x = some { s with i_register := s.v_registers x % 256 * 5 } ∧
    (s.v_registers x % 256 ≤ 15 →
      s.v_registers x % 256 * 5 = s.v_registers x % 256 % 16 * 5) := by
  constructor
  · unfold set_i_to_font_addr
    rw [if_pos hx]
  · intro hv
    have : s.v_registers x % 256 % 16 = s.v_registers x % 256 := by omega
    rw [this]

/-- Witness for `font_addr_times_five` at `fontState`, `x = 0`. -/
theorem font_addr_times_five_witness :
    set_i_to_font_addr fontState 0 =
      some { fontState with i_register := fontState.v_registers 0 % 256 * 5 } ∧
    (fontState.v_registers 0 % 256 ≤ 15 →
      fontState.v_registers 0 % 256 * 5 = fontState.v_registers 0 % 256 % 16 * 5) :=
  font_addr_times_five fontState 0 (by decide)

/-- Claim C5 (confirmed): the add-with-carry handler (8xy4) stores
`(a + b) mod 256` in `Vx` and sets `VF = 1` iff `a + b ≥ 256`, where
`a`, `b` are the 8-bit values of `Vx`, `Vy`.  The destination register is
required to be distinct from the flag register `VF` (the claim names them
separately), since the flag write follows the result write. -/
theorem add_xy_carry_spec (s : State) (x y : Nat) (hx : x < 16) (hy : y < 16)
    (hxF : x ≠ 15) :
    ∃ s', add_xy s x y = some s' ∧
      s'.v_registers x = (s.v_registers x % 256 + s.v_registers y % 256) % 256 ∧
      s'.v_registers 15 =
        (if 256 ≤ s.v_registers x % 256 + s.v_registers y % 256 then 1 else 0) := by
  unfold add_xy
  rw [if_pos ⟨hx, hy⟩]
  refine ⟨_, rfl, ?_, ?_⟩
  · dsimp only
    rw [Function.update_noteq hxF, Function.update_same]
  · dsimp only
    rw [Function.update_same]

/-- Witness for `add_xy_carry_spec`: `V0 = 5`, `V1 = 3` (via `subState`),
destination `V0`. -/
theorem add_xy_carry_spec_witness :
    ∃ s', add_xy subState 0 1 = some s' ∧
      s'.v_registers 0 = (subState.v_registers 0 % 256 + subState.v_registers 1 % 256) % 256 ∧
      s'.v_registers 15 =
        (if 256 ≤ subState.v_registers 0 % 256 + subState.v_registers 1 % 256 then 1 else 0) :=
  add_xy_carry_spec subState 0 1 (by decide) (by decide) (by decide)

/-- Claim C10 (confirmed): the skip-if-key (Ex9E) and skip-if-not-key
(ExA1) handlers index the 16-entry keypad with the full 8-bit value of
`Vx`: when that value is at most 15 the access is in bounds and the
program counter either advances by 2 (condition holds) or is left
unchanged; when it is 16 or more both handlers are an out-of-bounds fault
(`none`). -/
theorem skip_key_bounds (s : State) (x : Nat) (hx : x < 16)
    (hpc : s.program_counter + 2 < 65536) :
    (s.v_registers x % 256 ≤ 15 →
      skip_if_key s x = some (if s.keyboard (s.v_registers x % 256)
          then { s with program_counter := s.program_counter + 2 } else s) ∧
      skip_not_key s x = some (if s.keyboard (s.v_registers x % 256)
          then s else { s with program_counter := s.program_counter + 2 })) ∧
    (16 ≤ s.v_registers x % 256 →
      skip_if_key s x = none ∧ skip_not_key s x = none) := by
  have hmod : (s.program_counter + 2) % 65536 = s.program_counter + 2 :=
    Nat.mod_eq_of_lt hpc
  constructor
  · intro hv
    have hv' : s.v_registers x % 256 < 16 := by omega
    constructor
    · unfold skip_if_key
      rw [if_pos hx, if_pos hv', hmod]
    · unfold skip_not_key
      rw [if_pos hx, if_pos hv', hmod]
  · intro hv
    have hv' : ¬ s.v_registers x % 256 < 16 := by omega
    constructor
    · unfold skip_if_key
      rw [if_pos hx, if_neg hv']
    · unfold skip_not_key
      rw [if_pos hx, if_neg hv']

/-- Witness for `skip_key_bounds` at `fontState` (`V0 = 16`, the
out-of-bounds side is inhabited; the in-bounds side is vacuous there
only for register `V0`, so a second application elsewhere is not needed:
the statement instantiates both implications). -/
theorem skip_key_bounds_witness :
    (fontState.v_registers 0 % 256 ≤ 15 →
      skip_if_key fontState 0 = some (if fontState.keyboard (fontState.v_registers 0 % 256)
          then { fontState with program_counter := fontState.program_counter + 2 } else fontState) ∧
      skip_not_key fontState 0 = some (if fontState.keyboard (fontState.v_registers 0 % 256)
          then fontState else { fontState with program_counter := fontState.program_counter + 2 })) ∧
    (16 ≤ fontState.v_registers 0 % 256 →
      skip_if_key fontState 0 = none ∧ skip_not_key fontState 0 = none) :=
  skip_key_bounds fontState 0 (by decide) (by decide)

/-- `List.find?` over `List.range n` returns the least index satisfying the
predicate. -/
theorem find?_range_eq_some {p : Nat → Bool} {n k : Nat} (hk : k < n)
    (hp : p k = true) (hmin : ∀ j, j < k → p j = false) :
    (List.range n).find? p = some k := by
  induction n with
  | zero => omega
  | succ m ih =>
    rw [List.range_succ, List.find?_append]
    rcases Nat.lt_or_ge k m with h | h
    · rw [ih h]
      rfl
    · have hkm : k = m := by omega
      subst hkm
      have hnone : (List.range k).find? p = none := by
        refine List.find?_eq_none.mpr ?_
        intro j hj
        rw [List.mem_range] at hj
        simp [hmin j hj]
      rw [hnone]
      simp [List.find?, hp]

/-- Decode-dispatch of an `Fx0A` word reaches `wait_timer`. -/
theorem execute_wait (st : State) (r x : Nat) (hx : x < 16) :
    execute st ((240 + x) * 256 + 10) r = Option.map TickResult.cont (wait_timer st x) := by
  interval_cases x <;> rfl

/-- Claim C7 (confirmed): when the instruction at the program counter is
the key-wait instruction `Fx0A`, a single `tick` with no key pressed
returns the machine in exactly its pre-step state (the unconditional `+2`
pre-advance is undone by the handler's `-2`), so the same instruction is
re-fetched next step; with at least one key pressed, the lowest-indexed
pressed key's index is written into `Vx` and the program counter advances
by 2. -/
theorem wait_key_blocks (s : State) (r x : Nat) (hx : x < 16)
    (hpc : s.program_counter + 1 < 4096)
    (hi1 : s.memory s.program_counter % 256 = 240 + x)
    (hi2 : s.memory (s.program_counter + 1) % 256 = 10) :
    ((∀ k, k < 16 → s.keyboard k = false) → tick s r = some (TickResult.cont s)) ∧
    (∀ k, k < 16 → s.keyboard k = true → (∀ j, j < k → s.keyboard j = false) →
      tick s r = some (TickResult.cont { s with
        program_counter := s.program_counter + 2,
        v_registers := Function.update s.v_registers x k })) := by
  have hro : read_opcode s =
      some ((240 + x) * 256 + 10, { s with program_counter := s.program_counter + 2 }) := by
    unfold read_opcode
    rw [if_pos hpc, hi1, hi2]
  have ht : tick s r =
      Option.map TickResult.cont
        (wait_timer { s with program_counter := s.program_counter + 2 } x) := by
    unfold tick
    rw [hro]
    dsimp only
    rw [execute_wait _ _ _ hx]
  constructor
  · intro hk
    have hfind : (List.range 16).find?
        (fun idx => ({ s with program_counter := s.program_counter + 2 } : State).keyboard idx)
          = none := by
      refine List.find?_eq_none.mpr ?_
      intro j hj
      rw [List.mem_range] at hj
      simp [hk j hj]
    rw [ht]
    unfold wait_timer
    rw [hfind]
    have hpc2 : (s.program_counter + 2 + 65536 - 2) % 65536 = s.program_counter := by
      omega
    dsimp only
    rw [hpc2]
    rfl
  · intro k hk hkp hmin
    have hfind : (List.range 16).find?
        (fun idx => ({ s with program_counter := s.program_counter + 2 } : State).keyboard idx)
          = some k :=
      find?_range_eq_some hk hkp hmin
    rw [ht]
    unfold wait_timer
    rw [hfind]
    dsimp only
    rw [if_pos hx]
    rfl

/-- Concrete state for the C7 witness: key-wait instruction `F00A` at the
entry point, key 3 pressed. -/
def waitState : State := { zeroState with
  memory := fun a => if a = 512 then 240 else if a = 513 then 10 else 0,
  keyboard := fun k => k == 3 }

/-- Witness for `wait_key_blocks` at `waitState` (key 3 is the lowest
pressed key): the pressed branch fires with `k = 3`. -/
theorem wait_key_blocks_witness :
    tick waitState 0 = some (TickResult.cont { waitState with
      program_counter := waitState.program_counter + 2,
      v_registers := Function.update waitState.v_registers 0 3 }) :=
  (wait_key_blocks waitState 0 0 (by decide) (by decide) (by decide) (by decide)).2
    3 (by decide) (by decide) (by decide)

/-- A dispatched handler result is never the halt result. -/
theorem opt_map_cont_shape (o : Option State) :
    Option.map TickResult.cont o = none ∨
    ∃ s', Option.map TickResult.cont o = some (TickResult.cont s') := by
  cases o with
  | none => exact Or.inl rfl
  | some s => exact Or.inr ⟨s, rfl⟩

/-- The fetched word is a 16-bit value. -/
theorem fetchWord_lt (s : State) : fetchWord s < 65536 := by
  unfold fetchWord
  omega

/-- A mapped continue result never equals a halt result. -/
theorem map_cont_ne_halt (o : Option State) (s' : State) :
    Option.map TickResult.cont o ≠ some (TickResult.halt s') := by
  cases o <;> simp

/-- Execution returns the halt result only for the all-zero word. -/
theorem execute_halt_eq (st : State) (op r : Nat) (s' : State) (hop : op < 65536)
    (h : execute st op r = some (TickResult.halt s')) : op = 0 := by
  unfold execute at h
  split_ifs at h with hc
  · omega
  · exact absurd h (map_cont_ne_halt _ _)

/-- Every dispatch of a nonzero word yields either a fault or a continue
result — never the halt result. -/
theorem execute_not_halt (st : State) (op r : Nat) (hop : op < 65536) (h0 : op ≠ 0) :
    execute st op r = none ∨ ∃ s', execute st op r = some (TickResult.cont s') := by
  cases hE : execute st op r with
  | none => exact Or.inl rfl
  | some res =>
    cases res with
    | halt s' => exact absurd (execute_halt_eq st op r s' hop hE) h0
    | cont s' => exact Or.inr ⟨s', rfl⟩

/-- Case analysis of one `tick` with an in-bounds fetch: either the fetched
word is zero and `tick` halts with only the program counter advanced, or
the word is nonzero and `tick` faults or continues. -/
theorem tick_cases (s : State) (r : Nat) (h : s.program_counter + 1 < 4096) :
    (fetchWord s = 0 ∧
      tick s r = some (TickResult.halt { s with program_counter := s.program_counter + 2 })) ∨
    (fetchWord s ≠ 0 ∧
      (tick s r = none ∨ ∃ s', tick s r = some (TickResult.cont s'))) := by
  have hro : read_opcode s =
      some (fetchWord s, { s with program_counter := s.program_counter + 2 }) := by
    unfold read_opcode fetchWord
    rw [if_pos h]
  have ht : tick s r =
      execute { s with program_counter := s.program_counter + 2 } (fetchWord s) r := by
    unfold tick
    rw [hro]
  by_cases h0 : fetchWord s = 0
  · left
    refine ⟨h0, ?_⟩
    rw [ht, h0]
    rfl
  · right
    refine ⟨h0, ?_⟩
    rw [ht]
    exact execute_not_halt _ _ _ (fetchWord_lt s) h0

/-- Claim C8 (confirmed): with an in-bounds fetch, a single step returns
the halt result ("no more instructions") iff the 16-bit big-endian word at
the program counter is `0x0000`; and whenever the step returns at all
(does not fault) on a nonzero word, the result is the continue result —
the zero word is the only halt sentinel, and it is neither executed nor a
fault. -/
theorem tick_halt_iff (s : State) (r : Nat) (h : s.program_counter + 1 < 4096) :
    ((∃ st, tick s r = some (TickResult.halt st)) ↔ fetchWord s = 0) ∧
    (∀ res, tick s r = some res → fetchWord s ≠ 0 →
      ∃ st, res = TickResult.cont st) := by
  rcases tick_cases s r h with ⟨h0, ht⟩ | ⟨h0, ht⟩
  · refine ⟨⟨fun _ => h0, fun _ => ⟨_, ht⟩⟩, ?_⟩
    intro res hres hne
    exact absurd h0 hne
  · constructor
    · constructor
      · rintro ⟨st, hst⟩
        rcases ht with hn | ⟨s', hs'⟩
        · rw [hn] at hst
          exact Option.noConfusion hst
        · rw [hs'] at hst
          exact TickResult.noConfusion (Option.some.inj hst)
      · intro hw
        exact absurd hw h0
    · intro res hres hne
      rcases ht with hn | ⟨s', hs'⟩
      · rw [hn] at hres
        exact Option.noConfusion hres
      · rw [hs'] at hres
        exact ⟨s', (Option.some.inj hres).symm⟩

/-- Witness for `tick_halt_iff` at the all-zero state (memory is all
zeroes, so the fetched word is the halt sentinel). -/
theorem tick_halt_iff_witness :
    ((∃ st, tick zeroState 0 = some (TickResult.halt st)) ↔ fetchWord zeroState = 0) ∧
    (∀ res, tick zeroState 0 = some res → fetchWord zeroState ≠ 0 →
      ∃ st, res = TickResult.cont st) :=
  tick_halt_iff zeroState 0 (by decide)

/-- Claim C9 (confirmed): when both memory bytes at the program counter
are zero, a single step returns the halt result and the carried state is
the input state with every component unchanged except the program counter,
which has been advanced by exactly 2 by the fetch pre-advance. -/
theorem tick_halt_frame (s : State) (r : Nat) (h : s.program_counter + 1 < 4096)
    (h0 : s.memory s.program_counter % 256 = 0)
    (h1 : s.memory (s.program_counter + 1) % 256 = 0) :
    ∃ st, tick s r = some (TickResult.halt st) ∧
      st.program_counter = s.program_counter + 2 ∧
      st.v_registers = s.v_registers ∧
      st.i_register = s.i_register ∧
      st.memory = s.memory ∧
      st.stack_pointer = s.stack_pointer ∧
      st.stack = s.stack ∧
      st.display = s.display ∧
      st.keyboard = s.keyboard ∧
      st.delay_timer = s.delay_timer ∧
      st.sound_timer = s.sound_timer := by
  have hw : fetchWord s = 0 := by
    unfold fetchWord
    rw [h0, h1]
  rcases tick_cases s r h with ⟨_, ht⟩ | ⟨hne, _⟩
  · exact ⟨_, ht, rfl, rfl, rfl, rfl, rfl, rfl, rfl, rfl, rfl, rfl⟩
  · exact absurd hw hne

/-- Witness for `tick_halt_frame` at the all-zero state. -/
theorem tick_halt_frame_witness :
    ∃ st, tick zeroState 0 = some (TickResult.halt st) ∧
      st.program_counter = zeroState.program_counter + 2 ∧
      st.v_registers = zeroState.v_registers ∧
      st.i_register = zeroState.i_register ∧
      st.memory = zeroState.memory ∧
      st.stack_pointer = zeroState.stack_pointer ∧
      st.stack = zeroState.stack ∧
      st.display = zeroState.display ∧
      st.keyboard = zeroState.keyboard ∧
      st.delay_timer = zeroState.delay_timer ∧
      st.sound_timer = zeroState.sound_timer :=
  tick_halt_frame zeroState 0 (by decide) (by decide) (by decide)

/-- Value of the display component after the draw fold: each cell is
toggled once per occurrence of its index in the target list. -/
theorem toggleFlip_fst (L : List Nat) (q : (Nat → Bool) × Bool) (j : Nat) :
    (L.foldl toggleFlip q).1 j = if L.count j % 2 = 1 then !q.1 j else q.1 j := by
  induction L generalizing q with
  | nil => simp
  | cons a L ih =>
    rw [List.foldl_cons, ih]
    by_cases haj : a = j
    · subst haj
      simp only [toggleFlip, Function.update_same, List.count_cons_self]
      rcases Nat.mod_two_eq_zero_or_one (L.count a) with hc | hc
      · have h1 : (L.count a + 1) % 2 = 1 := by omega
        rw [hc, h1]
        simp
      · have h1 : (L.count a + 1) % 2 = 0 := by omega
        rw [hc, h1]
        simp
    · simp only [toggleFlip, Function.update_noteq (Ne.symm haj),
        List.count_cons_of_ne (Ne.symm haj)]

/-- Updating the probed function at an index outside the list does not
change `List.any`. -/
theorem any_update_of_not_mem (L : List Nat) (dp : Nat → Bool) (a : Nat) (v : Bool)
    (h : a ∉ L) :
    (L.any fun j => Function.update dp a v j) = L.any fun j => dp j := by
  induction L with
  | nil => rfl
  | cons b L ih =>
    have hba : b ≠ a := by
      rintro rfl
      exact h (List.mem_cons_self _ _)
    rw [List.any_cons, List.any_cons, ih fun hm => h (List.mem_cons_of_mem _ hm),
        Function.update_noteq hba]

/-- Value of the collision flag after the draw fold on a duplicate-free
target list: a collision is recorded iff some targeted cell was on when
the fold started. -/
theorem toggleFlip_snd (L : List Nat) (q : (Nat → Bool) × Bool) (hL : L.Nodup) :
    (L.foldl toggleFlip q).2 = (q.2 || L.any fun j => q.1 j) := by
  induction L generalizing q with
  | nil => simp
  | cons a L ih =>
    obtain ⟨ha, hL'⟩ := List.nodup_cons.mp hL
    rw [List.foldl_cons, ih _ hL']
    simp only [toggleFlip]
    rw [any_update_of_not_mem L q.1 a _ ha, List.any_cons, Bool.or_assoc]

/-- The sprite traversal order is the list product of the row and column
ranges, hence duplicate-free. -/
theorem spritePairs_nodup (n : Nat) : (spritePairs n).Nodup := by
  have h : spritePairs n = List.range n ×ˢ List.range 8 := rfl
  rw [h]
  exact List.Nodup.product (List.nodup_range n) (List.nodup_range 8)

/-- Bounds of the sprite traversal pairs. -/
theorem mem_spritePairs {n : Nat} {p : Nat × Nat} (hp : p ∈ spritePairs n) :
    p.1 < n ∧ p.2 < 8 := by
  obtain ⟨a, b⟩ := p
  have h : spritePairs n = List.range n ×ˢ List.range 8 := rfl
  rw [h, List.mem_product, List.mem_range, List.mem_range] at hp
  exact hp

/-- Distinct in-range sprite positions target distinct framebuffer cells
(rows are distinct mod 32 for heights up to 32, columns mod 64). -/
theorem targetIdx_inj {xc yc : Nat} {p q : Nat × Nat} (hp1 : p.1 < 32) (hq1 : q.1 < 32)
    (hp2 : p.2 < 8) (hq2 : q.2 < 8) (h : targetIdx xc yc p = targetIdx xc yc q) :
    p = q := by
  obtain ⟨a, b⟩ := p
  obtain ⟨c, d⟩ := q
  simp only [targetIdx] at h
  simp only [Prod.mk.injEq]
  simp only at hp1 hq1 hp2 hq2
  constructor <;> omega

/-- The cells targeted by one draw of a sprite of height at most 32 are
pairwise distinct. -/
theorem spriteTargets_nodup (mem : Nat → Nat) (i xc yc n : Nat) (hn : n ≤ 32) :
    (spriteTargets mem i xc yc n).Nodup := by
  unfold spriteTargets
  apply List.Nodup.map_on
  · intro p hp q hq hpq
    have hp' := mem_spritePairs (List.mem_of_mem_filter hp)
    have hq' := mem_spritePairs (List.mem_of_mem_filter hq)
    exact targetIdx_inj (by omega) (by omega) hp'.2 hq'.2 hpq
  · exact (spritePairs_nodup n).filter _

/-- Claim C6 (confirmed): drawing the same sprite twice in succession —
same coordinate registers, I, and memory, with the coordinate registers
distinct from the flag register `VF` that the first draw overwrites —
restores every framebuffer cell to its value before the first draw (XOR
self-inverse), and the second draw sets `VF = 1` provided the first draw
turned at least one cell on.  The height `d` is a decoded nibble, hence
at most 15 ≤ 32. -/
theorem draw_twice_restores (s s₁ s₂ : State) (x y d : Nat)
    (hx : x < 16) (hy : y < 16) (hxF : x ≠ 15) (hyF : y ≠ 15) (hd : d ≤ 32)
    (h₁ : display_op s x y d = some s₁) (h₂ : display_op s₁ x y d = some s₂) :
    (∀ j, s₂.display j = s.display j) ∧
    ((∃ j, s.display j = false ∧ s₁.display j = true) → s₂.v_registers 15 = 1) := by
  unfold display_op at h₁ h₂
  rw [if_pos ⟨hx, hy⟩] at h₁ h₂
  by_cases hb : d = 0 ∨ s.i_register + d ≤ 4096
  case neg =>
    rw [if_neg hb] at h₁
    exact Option.noConfusion h₁
  rw [if_pos hb] at h₁
  injection h₁ with h₁
  subst h₁
  dsimp only at h₂
  rw [if_pos hb, Function.update_noteq hxF, Function.update_noteq hyF] at h₂
  injection h₂ with h₂
  subst h₂
  have hnd : (spriteTargets s.memory s.i_register (s.v_registers x % 256)
      (s.v_registers y % 256) d).Nodup :=
    spriteTargets_nodup _ _ _ _ _ hd
  constructor
  · intro j
    dsimp only
    rw [toggleFlip_fst, toggleFlip_fst]
    by_cases hc : (spriteTargets s.memory s.i_register (s.v_registers x % 256)
        (s.v_registers y % 256) d).count j % 2 = 1
    · simp [hc]
    · simp [hc]
  · rintro ⟨j, hj0, hj1⟩
    dsimp only at hj0 hj1 ⊢
    rw [Function.update_same]
    rw [toggleFlip_fst] at hj1
    have hcnt : (spriteTargets s.memory s.i_register (s.v_registers x % 256)
        (s.v_registers y % 256) d).count j % 2 = 1 := by
      by_contra hc
      rw [if_neg hc] at hj1
      dsimp only at hj1
      rw [hj0] at hj1
      exact Bool.noConfusion hj1
    have hmem : j ∈ spriteTargets s.memory s.i_register (s.v_registers x % 256)
        (s.v_registers y % 256) d := by
      refine List.count_pos_iff.mp ?_
      omega
    rw [toggleFlip_snd _ _ hnd]
    have hany : (spriteTargets s.memory s.i_register (s.v_registers x % 256)
        (s.v_registers y % 256) d).any
          (fun i => ((spriteTargets s.memory s.i_register (s.v_registers x % 256)
            (s.v_registers y % 256) d).foldl toggleFlip (s.display, false)).1 i) = true := by
      refine List.any_eq_true.mpr ⟨j, hmem, ?_⟩
      rw [toggleFlip_fst, if_pos hcnt]
      dsimp only
      rw [hj0]
      rfl
    rw [hany]
    rfl

/-- Concrete draw state for the C6 witness: every sprite row byte is
`0x80`, so the single-row sprite at `(0, 0)` toggles exactly cell 0. -/
def drawState : State := { zeroState with memory := fun _ => 128 }

/-- State after the first draw of the C6 witness. -/
def drawState1 : State := (display_op drawState 0 1 1).getD zeroState

/-- State after the second draw of the C6 witness. -/
def drawState2 : State := (display_op drawState1 0 1 1).getD zeroState

/-- Witness for `draw_twice_restores`: one 1-row sprite drawn twice at
`(V0, V1) = (0, 0)`. -/
theorem draw_twice_restores_witness :
    (∀ j, drawState2.display j = drawState.display j) ∧
    ((∃ j, drawState.display j = false ∧ drawState1.display j = true) →
      drawState2.v_registers 15 = 1) :=
  draw_twice_restores drawState drawState1 drawState2 0 1 1 (by decide) (by decide)
    (by decide) (by decide) (by decide) rfl rfl
